import Mathlib

/-!
Shallow embedding of the chunked download engine in
`src/extensions/download_management/DownloadManager.ts` (Vortex).

Conventions:
* JS numbers that stay integral are modelled as `Int` (they can go negative
  through subtraction) or as `Nat` where the source only ever works with
  non-negative values.
* Callbacks are modelled by their observable effect: an action value is
  produced instead of invoking a stored closure.
* The `url()` closure of a chunk job is modelled by an opaque numeric id.

All line numbers refer to
`src/src/extensions/download_management/DownloadManager.ts`.
-/

namespace Vortex

/-- state field of a chunk job (`IDownloadJob.state`). -/
inductive ChunkState
  | init
  | running
  | paused
  | finished
deriving DecidableEq, Repr

/-- a chunk job (`IDownloadJob`): the mutable per-chunk record shared between
the manager and the worker.  `urlId` stands for the `url()` closure,
`hasResponseCB` / `hasErrorCB` record whether the optional callbacks are set
(chunks appended by `updateDownload` carry neither, see lines 1085-1094;
the initial chunk of `initChunk` carries both, lines 859-881). -/
structure Job where
  urlId : Nat
  offset : Int
  size : Int
  received : Int
  confirmedOffset : Int
  confirmedSize : Int
  confirmedReceived : Int
  state : ChunkState
  workerId : Option Nat
  hasResponseCB : Bool
  hasErrorCB : Bool
deriving DecidableEq, Repr

/-- persisted chunk checkpoint (`IChunk`). -/
structure StoredChunk where
  urlId : Nat
  offset : Int
  size : Int
  received : Int
deriving DecidableEq, Repr

/-- DownloadManager.toStoredChunk (lines 1106-1113): the numeric fields come
from the confirmed counters; `pause` (lines 798-804) builds the same record
inline. -/
def toStoredChunk (j : Job) : StoredChunk :=
  { urlId := j.urlId
    offset := j.confirmedOffset
    size := j.confirmedSize
    received := j.confirmedReceived }

/-- `this.mMinChunkSize = 20 * 1024 * 1024` (line 592). -/
def MIN_CHUNK_SIZE : Nat := 20 * 1024 * 1024

/-- `MAX_REDIRECT_FOLLOW = 2` (line 31). -/
def MAX_REDIRECT_FOLLOW : Nat := 2

/-- `DownloadWorker.BUFFER_SIZE = 256 * 1024` (line 118). -/
def BUFFER_SIZE : Nat := 256 * 1024

/-- `DownloadWorker.BUFFER_SIZE_CAP = 4 * 1024 * 1024` (line 119). -/
def BUFFER_SIZE_CAP : Nat := 4 * 1024 * 1024

/-! ## Chunk layout (`updateDownload`, lines 1067-1099) -/

/-- `Math.ceil(a / b)` on non-negative integers.  For `b = 0` JS divides by
zero giving `Infinity`; downstream `min(remaining, max(minChunk, Infinity))`
collapses to `remaining`, and returning `a` here produces the same
`chunkSize`, so the model agrees with the source also in that corner. -/
def ceilDivJs (a b : Nat) : Nat :=
  if b = 0 then a else (a + b - 1) / b

/-- the `while (offset < fileSize)` loop of `updateDownload` (lines
1083-1096), returning the `(offset, size)` pairs of the appended chunks in
order.  The source loop only terminates because `chunkSize > 0` at its call
site (proved below as `chunkSizeOf_pos`); the extra conjunct in the guard
makes that termination argument explicit and never differs from the source
where the source terminates. -/
def chunkLoop (chunkSize fileSize offset : Nat) : List (Nat × Nat) :=
  if _h : offset < fileSize ∧ 0 < chunkSize then
    (offset, min chunkSize (fileSize - offset)) ::
      chunkLoop chunkSize fileSize (offset + chunkSize)
  else
    []
termination_by fileSize - offset
decreasing_by omega

/-- `maxChunks = Math.min(this.mMaxChunks, this.mMaxWorkers)` (line 1077). -/
def maxChunksOf (maxChunksCfg maxWorkers : Nat) : Nat :=
  min maxChunksCfg maxWorkers

/-- `chunkSize = Math.min(remainingSize, Math.max(this.mMinChunkSize,
Math.ceil(remainingSize / maxChunks)))` (lines 1079-1080), with
`remainingSize = fileSize - this.mMinChunkSize` (line 1075). -/
def chunkSizeOf (maxChunksCfg maxWorkers fileSize : Nat) : Nat :=
  min (fileSize - MIN_CHUNK_SIZE)
    (max MIN_CHUNK_SIZE
      (ceilDivJs (fileSize - MIN_CHUNK_SIZE) (maxChunksOf maxChunksCfg maxWorkers)))

/-- a chunk appended by `updateDownload` (lines 1085-1094): state `init`,
confirmed counters mirroring `offset`/`size`, no received bytes, no worker
yet, and neither a response nor an error callback. -/
def mkAppendedChunk (urlId : Nat) (p : Nat × Nat) : Job :=
  { urlId := urlId
    offset := (p.1 : Int)
    size := (p.2 : Int)
    received := 0
    confirmedOffset := (p.1 : Int)
    confirmedSize := (p.2 : Int)
    confirmedReceived := 0
    state := ChunkState.init
    workerId := none
    hasResponseCB := false
    hasErrorCB := false }

/-- the effect of `updateDownload` (lines 1067-1099) on the chunk list: if
more than one chunk exists nothing happens (lines 1067-1069); if
`fileSize > this.mMinChunkSize && chunkable` (line 1071) the loop appends
chunks starting at `this.mMinChunkSize + 1` (line 1082); otherwise nothing
is appended. -/
def updateDownloadChunks (maxChunksCfg maxWorkers : Nat) (chunks : List Job)
    (fileSize : Nat) (chunkable : Bool) (urlId : Nat) : List Job :=
  if chunks.length > 1 then
    chunks
  else if MIN_CHUNK_SIZE < fileSize ∧ chunkable = true then
    chunks ++
      (chunkLoop (chunkSizeOf maxChunksCfg maxWorkers fileSize) fileSize
        (MIN_CHUNK_SIZE + 1)).map (mkAppendedChunk urlId)
  else
    chunks

/-! ## Filename reservation (`unusedName`, lines 1233-1296) -/

/-- `RedownloadMode` (line 33). -/
inductive RedownloadMode
  | always
  | never
  | ask
  | replace
deriving DecidableEq, Repr

/-- the errors `unusedName` can reject with: `AlreadyDownloaded(fileName)`
(line 1272) and `UserCanceled` (line 1281). -/
inductive NameErr
  | alreadyDownloaded (fileName : String)
  | userCanceled
deriving DecidableEq, Repr

/-- the name of the `k`-th candidate tried by `unusedName`: the sanitized
input name for `k = 0`, `base.<k><ext>` afterwards (line 1264). -/
def candName (base ext : String) (k : Nat) : String :=
  if k = 0 then base ++ ext else base ++ "." ++ toString k ++ ext

/-- the `loop` closure of `unusedName` (lines 1248-1293), with the
filesystem abstracted to `taken` (whether candidate `k` already exists, in
which case `fs.openAsync(_, 'wx')` fails with `EEXIST`).  `counter` is the
index of the candidate currently in `fullPath`; `first` the `first` flag;
`hasCB` whether a `file_exists_cb` is registered; `cbAnswer` the answer it
gives (`this.mFileExistsCB(fileName)` is invoked at most once, on the first
collision in `ask` mode).  On `EEXIST` the counter is incremented and
`fullPath` moved to the next candidate BEFORE the mode is consulted (lines
1263-1265), so `replace` resolves with the already-advanced candidate
(line 1274).  The result is the index of the candidate handed to `resolve`,
or the rejection; `none` when the fuel runs out (the source recursion is
unbounded; every claim below supplies enough fuel to reach a free
candidate). -/
def unusedNameLoop (taken : Nat → Bool) (mode : RedownloadMode)
    (hasCB cbAnswer : Bool) (name0 : String) :
    Nat → Bool → Nat → Option (Except NameErr Nat)
  | _, _, 0 => none
  | counter, first, fuel + 1 =>
    if taken counter = false then
      some (Except.ok counter)
    else if first = true ∧ hasCB = true then
      match mode with
      | RedownloadMode.always =>
          unusedNameLoop taken mode hasCB cbAnswer name0 (counter + 1) false fuel
      | RedownloadMode.never =>
          some (Except.error (NameErr.alreadyDownloaded name0))
      | RedownloadMode.replace =>
          some (Except.ok (counter + 1))
      | RedownloadMode.ask =>
          if cbAnswer = true then
            unusedNameLoop taken mode hasCB cbAnswer name0 (counter + 1) false fuel
          else
            some (Except.error NameErr.userCanceled)
    else
      unusedNameLoop taken mode hasCB cbAnswer name0 (counter + 1) first fuel

/-- `unusedName` after sanitizing: starts the loop at candidate 0 with
`first = true` and maps the resolved candidate index to its name. -/
def unusedName (taken : Nat → Bool) (mode : RedownloadMode)
    (hasCB cbAnswer : Bool) (base ext : String) (fuel : Nat) :
    Option (Except NameErr String) :=
  (unusedNameLoop taken mode hasCB cbAnswer (candName base ext 0) 0 true fuel).map
    (fun r => r.map (candName base ext))

/-! ## Download worker state -/

/-- the mutable state of a `DownloadWorker` (lines 117-135) that the claims
depend on.  `buffers` holds the byte lengths of the buffered blocks
(`mBuffers`), `dataHistoryLen` the length of `mDataHistory`. -/
structure Worker where
  ended : Bool
  writing : Bool
  restartFlag : Bool
  redirected : Bool
  redirectsFollowed : Nat
  dataHistoryLen : Nat
  buffers : List Nat
  job : Job
deriving DecidableEq, Repr

/-! ## Redirect handling (`handleResponse`, lines 361-397) -/

/-- classification of a response by `handleResponse`. -/
inductive RespDecision
  | redirect
  | httpError (status : Nat) (statusText jobUrl : String)
  | proceed
deriving DecidableEq, Repr

/-- `[301, 302, 307, 308].indexOf(response.statusCode) !== -1` (line 368). -/
def isRedirectCode (status : Nat) : Bool :=
  [301, 302, 307, 308].contains status

/-- the status dispatch of `handleResponse` (lines 367-397): a redirect
status with fewer than `MAX_REDIRECT_FOLLOW` redirects followed so far
re-issues the request; any other status `>= 300` fails the attempt with
`HTTPError(status, statusText, url)`; statuses below 300 proceed to the
body handling. -/
def responseDecision (status : Nat) (statusText jobUrl : String)
    (redirectsFollowed : Nat) : RespDecision :=
  if 300 ≤ status then
    if isRedirectCode status = true ∧ redirectsFollowed < MAX_REDIRECT_FOLLOW then
      RespDecision.redirect
    else
      RespDecision.httpError status statusText jobUrl
  else
    RespDecision.proceed

/-- the synchronous part of the redirect branch (lines 370-373): the job's
`url()` closure is rebound to the resolved location and `mRedirected` is
set. -/
def redirectBegin (w : Worker) (newUrlId : Nat) : Worker :=
  { w with redirected := true, job := { w.job with urlId := newUrlId } }

/-- the body of the 100 ms `setTimeout` in the redirect branch (lines
378-392): the redirect counter is incremented, `mRedirected` cleared, the
job's `size` rebuilt as `size + received` (copied into `confirmedSize`),
while `received`, `offset`, `confirmedReceived` and `confirmedOffset` are
all set to 0; the job re-enters `running` and `mEnded` is cleared before
`assignJob` is re-issued against the new URL. -/
def redirectSettle (w : Worker) : Worker :=
  { w with
    redirectsFollowed := w.redirectsFollowed + 1
    redirected := false
    ended := false
    job := { w.job with
      size := w.job.size + w.job.received
      confirmedSize := w.job.size + w.job.received
      received := 0
      offset := 0
      confirmedReceived := 0
      confirmedOffset := 0
      state := ChunkState.running } }

/-- `SETTLE_DELAY_MS`: the literal delay of the redirect `setTimeout`
(line 392). -/
def SETTLE_DELAY_MS : Nat := 100

/-- the redirect counter after a worker attempt processes a list of
response statuses in order: each response either takes the redirect branch
(incrementing the counter) or not. -/
def redirectsTrace (redirectsFollowed : Nat) : List Nat → Nat
  | [] => redirectsFollowed
  | status :: rest =>
    match responseDecision status "" "" redirectsFollowed with
    | RespDecision.redirect => redirectsTrace (redirectsFollowed + 1) rest
    | _ => redirectsTrace redirectsFollowed rest

/-! ## Response body setup (`handleResponse`, lines 399-459) -/

/-- the job mutations of the 2xx branch of `handleResponse` (lines
406-433), all guarded by `this.mJob.responseCB !== undefined` (line 410):
`chunkSize` is the parsed `Content-Length` or `-1` when absent (lines
411-413); without a `Content-Range` header the job's `offset` is reset to 0
(line 425); a `chunkSize` different from the job's `size` overwrites both
`size` and `confirmedSize` (lines 427-433). -/
def applyResponseToJob (j : Job) (contentLength : Option Int)
    (hasContentRange : Bool) : Job :=
  if j.hasResponseCB = true then
    let chunkSize : Int :=
      match contentLength with
      | some n => n
      | none => -1
    let j1 := if hasContentRange = true then j else { j with offset := 0 }
    if chunkSize ≠ j1.size then
      { j1 with size := chunkSize, confirmedSize := chunkSize }
    else
      j1
  else
    j

/-! ## Worker error handling (`handleError`, lines 283-309) -/

/-- the socket error codes that allow a mid-flight retry (line 295). -/
def retryErrorCodes : List String := ["ESOCKETTIMEDOUT", "ECONNRESET"]

/-- outcome of one `handleError` invocation. -/
inductive ErrorAction
  | ignored
  | retry
  | finish
deriving DecidableEq, Repr

/-- whether invoking `this.mJob.errorCB(err)` (line 290) re-entrantly sets
`mEnded` on this very worker: the first chunk's error callback is
`cancelDownload` (lines 877, 717), which calls `cancel()` on every running
chunk's busy worker — including the one whose error is being handled, when
its chunk is `running` and registered in `mBusyWorkers` — and
`cancel → abort` sets `mEnded` (lines 186-188, 311-321).  Chunks appended
by `updateDownload` have no error callback. -/
def errorCBEndsWorker (w : Worker) (chunkRunningBusy : Bool) : Bool :=
  w.job.hasErrorCB && chunkRunningBusy

/-- DownloadWorker.handleError (lines 283-309): a worker that already ended
drops the error (lines 284-287); otherwise `errorCB` is invoked (line 290),
then the attempt is retried when the code is one of `retryErrorCodes` AND
`mEnded` is still clear AND at least one data block arrived during this
attempt (lines 295-304); in every other case `mEnded` is set and
`mFinishCB(false)` fired (lines 305-308). -/
def handleError (w : Worker) (errCode : String) (chunkRunningBusy : Bool) :
    Worker × ErrorAction :=
  if w.ended = true then
    (w, ErrorAction.ignored)
  else
    let w1 := if errorCBEndsWorker w chunkRunningBusy = true then
      { w with ended := true } else w
    if retryErrorCodes.contains errCode = true ∧ w1.ended = false ∧
        0 < w1.dataHistoryLen then
      (w1, ErrorAction.retry)
    else
      ({ w1 with ended := true }, ErrorAction.finish)

/-! ## Worker data path and termination (lines 186-202, 311-321, 513-552) -/

/-- outcome of one `handleData` invocation. -/
inductive DataAction
  | dropEnded
  | dropRedirected
  | buffered
  | writeScheduled
  | backpressure
deriving DecidableEq, Repr

/-- `this.mBuffers.reduce((prev, iter) => prev + iter.length, 0)`
(lines 468-470). -/
def bufferLength (buffers : List Nat) : Nat :=
  buffers.foldl (fun prev iter => prev + iter) 0

/-- DownloadWorker.handleData (lines 513-552): data arriving after the
worker ended or after its job left `running` is dropped (lines 514-519);
data during a redirect is ignored (lines 521-524); otherwise the block is
recorded in `mDataHistory` and `mBuffers` and, at `BUFFER_SIZE` buffered
bytes with no write in flight, the buffers are merged and handed to
`job.dataCB` — `doWriteBuffer` advances `received`/`offset`/`size`
immediately by the merged length (lines 482-484) — while at
`BUFFER_SIZE_CAP` with a write already in flight the response is paused
(backpressure). -/
def handleData (w : Worker) (dataLen : Nat) : Worker × DataAction :=
  if w.ended = true ∨ w.job.state = ChunkState.paused ∨
      w.job.state = ChunkState.finished then
    (w, DataAction.dropEnded)
  else if w.redirected = true then
    (w, DataAction.dropRedirected)
  else
    let w1 := { w with
      dataHistoryLen := w.dataHistoryLen + 1
      buffers := w.buffers ++ [dataLen] }
    let bl := bufferLength w1.buffers
    if BUFFER_SIZE ≤ bl then
      if w1.writing = false then
        ({ w1 with
          writing := true
          buffers := []
          job := { w1.job with
            received := w1.job.received + (bl : Int)
            offset := w1.job.offset + (bl : Int)
            size := w1.job.size - (bl : Int) } }, DataAction.writeScheduled)
      else if BUFFER_SIZE_CAP ≤ bl then
        (w1, DataAction.backpressure)
      else
        (w1, DataAction.buffered)
    else
      (w1, DataAction.buffered)

/-- DownloadWorker.abort (lines 311-321): returns `false` without any
effect when the worker already ended; otherwise sets `mEnded` and fires
`mFinishCB(paused)` — the second component is `some paused` exactly when
the finish callback fired. -/
def abortWorker (w : Worker) (paused : Bool) : Worker × Option Bool :=
  if w.ended = true then
    (w, none)
  else
    ({ w with ended := true }, some paused)

/-! ## Manager: download state, pause, finishChunk (lines 774-816, 1149-1210) -/

/-- the slice of `IRunningDownload` (lines 83-107) the claims depend on. -/
structure Download where
  id : Nat
  error : Bool
  size : Int
  received : Int
  chunks : List Job
  assemblerClosed : Bool
deriving DecidableEq, Repr

/-- the first `forEach` of `pause` (lines 790-794): every `init` chunk is
transitioned to `paused`. -/
def pauseMarkInit (chunks : List Job) : List Job :=
  chunks.map (fun c =>
    if c.state = ChunkState.init then { c with state := ChunkState.paused } else c)

/-- the collection condition of the second `forEach` of `pause` (line 798):
`['running', 'paused'].includes(chunk.state) && (chunk.size > 0)`. -/
def pauseCollectible (c : Job) : Bool :=
  (c.state == ChunkState.running || c.state == ChunkState.paused) &&
    decide (0 < c.size)

/-- the checkpoints accumulated by `pause` (lines 797-810): one per
collectible chunk, with the numeric fields taken from the confirmed
counters (lines 799-804). -/
def pauseCheckpoints (chunks : List Job) : List StoredChunk :=
  (chunks.filter pauseCollectible).map toStoredChunk

/-- one step of the worker shutdown of `pause` (lines 805-808): when the
chunk is collectible and its `workerId` is registered in `mBusyWorkers`,
the worker is paused and `stopWorker` removes it from the busy table. -/
def pauseReleaseStep (b : List Nat) (c : Job) : List Nat :=
  if pauseCollectible c = true then
    match c.workerId with
    | some wid => if b.contains wid = true then b.erase wid else b
    | none => b
  else b

/-- the worker shutdown of `pause` over all chunks (second `forEach`,
lines 797-810). -/
def pauseReleaseWorkers (busy : List Nat) (chunks : List Job) : List Nat :=
  chunks.foldl pauseReleaseStep busy

/-- DownloadManager.pause (lines 774-816): `none` when the id is not queued
(lines 777-781); otherwise `init` chunks become `paused`, checkpoints are
collected, busy workers of collectible chunks are released, the download is
removed from the queue and the checkpoint list returned. -/
def pauseOp (queue : List Download) (busy : List Nat) (id : Nat) :
    List Download × List Nat × Option (List StoredChunk) :=
  match queue.find? (fun d => d.id == id) with
  | none => (queue, busy, none)
  | some d =>
    let marked := pauseMarkInit d.chunks
    (queue.filter (fun d2 => d2.id != id),
     pauseReleaseWorkers busy marked,
     some (pauseCheckpoints marked))

/-- the checkpoint list C4 claims `pause` returns: one checkpoint per chunk
in state `running` with positive size (after the `init → paused`
transition), nothing for any other chunk. -/
def claimPauseCheckpoints (chunks : List Job) : List StoredChunk :=
  ((pauseMarkInit chunks).filter (fun c =>
    c.state == ChunkState.running && decide (0 < c.size))).map toStoredChunk

/-- `!['paused', 'finished'].includes(chunk.state)` (line 1161), negated:
whether a chunk state is terminal. -/
def isTerminalState (s : ChunkState) : Bool :=
  s == ChunkState.paused || s == ChunkState.finished

/-- the completion record passed to `finishCB` (lines 1200-1206), without
the file path and headers (opaque here). -/
structure FinishResult where
  unfinishedChunks : List StoredChunk
  hadErrors : Bool
  size : Int
deriving DecidableEq, Repr

/-- DownloadManager.finishChunk (lines 1149-1210): the worker slot is freed
(line 1150), the chunk becomes `paused` when interrupted or when residual
`size > 0` and `finished` otherwise (line 1155), a non-interrupted finish
with residual size sets the sticky `error` flag (lines 1156-1158); when no
chunk remains non-terminal the assembler is closed and `finishCB` receives
the `paused` chunks as stored checkpoints, `hadErrors = download.error` and
`size = Math.max(download.size, download.received)` (lines 1160-1207). -/
def finishChunk (d : Download) (idx : Nat) (interrupted : Bool)
    (busy : List Nat) : Download × List Nat × Option FinishResult :=
  match d.chunks[idx]? with
  | none => (d, busy, none)
  | some j =>
    let busy1 := match j.workerId with
      | some wid => busy.erase wid
      | none => busy
    let newState := if interrupted = true ∨ 0 < j.size then
      ChunkState.paused else ChunkState.finished
    let chunks1 := d.chunks.set idx { j with state := newState }
    let error1 := d.error || (!interrupted && decide (0 < j.size))
    if chunks1.all (fun c => isTerminalState c.state) then
      ({ d with chunks := chunks1, error := error1, assemblerClosed := true },
       busy1,
       some { unfinishedChunks :=
                (chunks1.filter (fun c => c.state == ChunkState.paused)).map
                  toStoredChunk
              hadErrors := error1
              size := max d.size d.received })
    else
      ({ d with chunks := chunks1, error := error1 }, busy1, none)

/-! ## Stall detection (`makeProgressCB`, lines 930-949) -/

/-- `15 * 60 * 1000` (line 940). -/
def SLOW_WORKER_WINDOW_MS : Int := 15 * 60 * 1000

/-- one progress tick of `makeProgressCB` (lines 930-949), reduced to this
worker's entry in `mSlowWorkers` (`slowCount`; a deleted entry reads back
as 0 through `|| 0`).  `starving` is the tri-state result of
`addMeasure`: `some true` increments the counter and — when it exceeds 15
and the download started less than 15 minutes ago — restarts the worker and
deletes the counter; `some false` deletes the counter; `none` (undefined)
changes nothing.  The second component tells whether `restart()` was
called. -/
def progressTick (slowCount : Nat) (starving : Option Bool)
    (startedDefined : Bool) (elapsedMs : Int) : Nat × Bool :=
  match starving with
  | some true =>
    let slow1 := slowCount + 1
    if 15 < slow1 ∧ startedDefined = true ∧ elapsedMs < SLOW_WORKER_WINDOW_MS then
      (0, true)
    else
      (slow1, false)
  | some false => (0, false)
  | none => (slowCount, false)

/-! ## Enqueue entry (`enqueue`, lines 624-679) -/

/-- the error classes `enqueue` can reject with before any work happens:
the plain `new Error('No download urls')` of line 630 and the
`DataInvalid` of line 639. -/
inductive EnqueueErr
  | genericError (message : String)
  | dataInvalid (message : String)
deriving DecidableEq, Repr

/-- the synchronous entry of `enqueue` (lines 624-640) acting on the queue
(downloads by id): an empty URL list is rejected immediately with the plain
`Error('No download urls')` (lines 629-631) before anything is created or
queued; otherwise the download is eventually built and pushed (line 670) —
the intermediate parsing/reservation steps, modelled separately, do not
touch the queue either and are abbreviated here by the push itself. -/
def enqueueStart (urls : List String) (queue : List Nat) (id : Nat) :
    Except EnqueueErr (List Nat) :=
  if urls.length = 0 then
    Except.error (EnqueueErr.genericError "No download urls")
  else
    Except.ok (queue ++ [id])

/-- recognizer for a `DataInvalid` rejection. -/
def isDataInvalid : Except EnqueueErr (List Nat) → Bool
  | Except.error (EnqueueErr.dataInvalid _) => true
  | _ => false

/-- a concrete job: the single initial chunk of a fresh download
(`initChunk`, lines 859-881). -/
def witnessInitJob : Job :=
  { urlId := 7
    offset := 0
    size := (MIN_CHUNK_SIZE : Int)
    received := 0
    confirmedOffset := 0
    confirmedSize := (MIN_CHUNK_SIZE : Int)
    confirmedReceived := 0
    state := ChunkState.init
    workerId := none
    hasResponseCB := true
    hasErrorCB := true }

/-- a running chunk used by witnesses: worker 3, 10 bytes received and
confirmed, 10 residual. -/
def witnessRunningJob : Job :=
  { witnessInitJob with
    state := ChunkState.running
    workerId := some 3
    offset := 10
    received := 10
    size := 10
    confirmedOffset := 10
    confirmedReceived := 10
    confirmedSize := 10 }

/-- a small not-yet-started chunk used by witnesses. -/
def witnessSecondJob : Job :=
  { witnessInitJob with size := 20, confirmedSize := 20 }

/-- a queued download with one running and one init chunk. -/
def witnessPauseDownload : Download :=
  { id := 2
    error := false
    size := 40
    received := 10
    chunks := [witnessRunningJob, witnessSecondJob]
    assemblerClosed := false }

/-- a queued download whose single chunk never started. -/
def witnessInitOnlyDownload : Download :=
  { id := 1
    error := false
    size := 20
    received := 0
    chunks := [{ witnessInitJob with size := 5, confirmedSize := 5 }]
    assemblerClosed := false }

/-- a live worker used by witnesses and counterexamples: one data block
already received on this attempt. -/
def witnessWorker : Worker :=
  { ended := false
    writing := false
    restartFlag := false
    redirected := false
    redirectsFollowed := 0
    dataHistoryLen := 1
    buffers := []
    job := witnessInitJob }

/-! # Theorems -/

theorem chunkSizeOf_pos (maxChunksCfg maxWorkers fileSize : Nat)
    (h : MIN_CHUNK_SIZE < fileSize) :
    0 < chunkSizeOf maxChunksCfg maxWorkers fileSize := by
  unfold chunkSizeOf ceilDivJs maxChunksOf MIN_CHUNK_SIZE at *
  split <;> omega

/-- closed form of the layout loop: the `k`-th appended chunk starts at
`offset + k * chunkSize` and has size `min chunkSize (fileSize - start)`,
and the loop runs `⌈(fileSize - offset) / chunkSize⌉` times. -/
theorem chunkLoop_closed (cs fs : Nat) (hcs : 0 < cs) : ∀ off : Nat,
    chunkLoop cs fs off =
      (List.range ((fs - off + cs - 1) / cs)).map
        (fun k => (off + k * cs, min cs (fs - (off + k * cs)))) := by
  intro off
  induction off using chunkLoop.induct cs fs with
  | case1 off h ih =>
    have hlt : off < fs := h.1
    have hn : (fs - off + cs - 1) / cs = (fs - (off + cs) + cs - 1) / cs + 1 := by
      rcases Nat.lt_or_ge (fs - off) cs with hc | hc
      · have h1 : fs - (off + cs) = 0 := by omega
        rw [h1]
        have h2 : (fs - off + cs - 1) / cs = 1 := by
          apply Nat.div_eq_of_lt_le <;> omega
        have h3 : (0 + cs - 1) / cs = 0 := by
          apply Nat.div_eq_of_lt
          omega
        omega
      · have h1 : fs - off + cs - 1 = (fs - (off + cs) + cs - 1) + cs := by omega
        rw [h1, Nat.add_div_right]
        omega
    rw [chunkLoop, dif_pos h, ih, hn, List.range_succ_eq_map, List.map_cons,
      List.map_map]
    congr 1
    · simp
    · apply List.map_congr_left
      intro k _
      simp only [Function.comp_apply, Nat.succ_eq_add_one]
      have hk : off + cs + k * cs = off + (k + 1) * cs := by ring
      rw [hk]
  | case2 off h =>
    rw [chunkLoop, dif_neg h]
    rcases Nat.lt_or_ge off fs with hlt | hge
    · exact absurd ⟨hlt, hcs⟩ h
    · have hfo : fs - off = 0 := by omega
      rw [hfo]
      have hz : (0 + cs - 1) / cs = 0 := by
        apply Nat.div_eq_of_lt
        omega
      rw [hz]
      simp

/-- sanity check matching spec scenario 2: an 80 MiB chunkable file with
`max_chunks = max_workers = 4` yields extra chunks at `20 MiB + 1`,
`40 MiB + 1` and `60 MiB + 1`, each of 20 MiB (the last one byte short). -/
theorem chunkLayout_80MiB :
    chunkLoop (chunkSizeOf 4 4 83886080) 83886080 (MIN_CHUNK_SIZE + 1) =
      [(20971521, 20971520), (41943041, 20971520), (62914561, 20971519)] := by
  rw [chunkLoop_closed _ _ (chunkSizeOf_pos 4 4 83886080 (by decide))]
  decide

/-- C1: on the first successful response with `file_size > MIN_CHUNK_SIZE`
and a chunkable server, `updateDownload` appends chunks in state `init`
starting at `MIN_CHUNK_SIZE + 1`, each of size
`min(chunk_size, file_size - offset)` with
`chunk_size = min(remaining, max(MIN_CHUNK_SIZE, ceil(remaining /
min(max_chunks, max_workers))))`, advancing by `chunk_size` until the
offset reaches `file_size`; in every other case (size too small, not
chunkable, or more than one chunk already present) the chunk list is
unchanged. -/
theorem C1_updateDownload_chunk_layout (maxChunksCfg maxWorkers : Nat)
    (chunks : List Job) (fileSize : Nat) (chunkable : Bool) (urlId : Nat) :
    (chunks.length ≤ 1 → MIN_CHUNK_SIZE < fileSize → chunkable = true →
      updateDownloadChunks maxChunksCfg maxWorkers chunks fileSize chunkable urlId =
        chunks ++
          (List.range
              ((fileSize - (MIN_CHUNK_SIZE + 1) +
                  chunkSizeOf maxChunksCfg maxWorkers fileSize - 1) /
                chunkSizeOf maxChunksCfg maxWorkers fileSize)).map
            (fun k =>
              mkAppendedChunk urlId
                (MIN_CHUNK_SIZE + 1 + k * chunkSizeOf maxChunksCfg maxWorkers fileSize,
                 min (chunkSizeOf maxChunksCfg maxWorkers fileSize)
                   (fileSize -
                     (MIN_CHUNK_SIZE + 1 +
                       k * chunkSizeOf maxChunksCfg maxWorkers fileSize))))) ∧
    ((1 < chunks.length ∨ fileSize ≤ MIN_CHUNK_SIZE ∨ chunkable = false) →
      updateDownloadChunks maxChunksCfg maxWorkers chunks fileSize chunkable urlId =
        chunks) := by
  constructor
  · intro hlen hfs hch
    have hpos := chunkSizeOf_pos maxChunksCfg maxWorkers fileSize hfs
    unfold updateDownloadChunks
    rw [if_neg (by omega), if_pos ⟨hfs, hch⟩,
      chunkLoop_closed _ _ hpos (MIN_CHUNK_SIZE + 1), List.map_map]
    rfl
  · intro hcase
    unfold updateDownloadChunks
    rcases hcase with hlen | hfs | hch
    · rw [if_pos (by omega)]
    · by_cases hl : chunks.length > 1
      · rw [if_pos hl]
      · rw [if_neg hl, if_neg (by omega)]
    · by_cases hl : chunks.length > 1
      · rw [if_pos hl]
      · rw [if_neg hl, if_neg (by simp [hch])]

/-- C1 witness: the theorem applied to the 80 MiB scenario. -/
theorem C1_updateDownload_chunk_layout_witness :
    [witnessInitJob].length ≤ 1 ∧ MIN_CHUNK_SIZE < 83886080 ∧
    updateDownloadChunks 4 4 [witnessInitJob] 83886080 true 7 =
      [witnessInitJob] ++
        (List.range
            ((83886080 - (MIN_CHUNK_SIZE + 1) + chunkSizeOf 4 4 83886080 - 1) /
              chunkSizeOf 4 4 83886080)).map
          (fun k =>
            mkAppendedChunk 7
              (MIN_CHUNK_SIZE + 1 + k * chunkSizeOf 4 4 83886080,
               min (chunkSizeOf 4 4 83886080)
                 (83886080 - (MIN_CHUNK_SIZE + 1 + k * chunkSizeOf 4 4 83886080)))) :=
  ⟨by decide, by decide,
    (C1_updateDownload_chunk_layout 4 4 [witnessInitJob] 83886080 true 7).1
      (by decide) (by decide) rfl⟩

/-- once past the first collision (or without a callback), the suffix loop
returns the first free candidate at or above the current counter. -/
theorem unusedNameLoop_finds_free (taken : Nat → Bool) (mode : RedownloadMode)
    (hasCB cbAnswer : Bool) (name0 : String) (k : Nat)
    (hfree : taken k = false) :
    ∀ fuel counter first, (first = false ∨ hasCB = false) → counter ≤ k →
    (∀ j, counter ≤ j → j < k → taken j = true) → k - counter < fuel →
    unusedNameLoop taken mode hasCB cbAnswer name0 counter first fuel =
      some (Except.ok k) := by
  intro fuel
  induction fuel with
  | zero =>
    intro counter first _ h2 _ h4
    omega
  | succ fuel ih =>
    intro counter first h1 h2 h3 h4
    by_cases hc : counter = k
    · subst hc
      simp only [unusedNameLoop]
      rw [if_pos hfree]
    · have hck : counter < k := by omega
      have htc : taken counter = true := h3 counter le_rfl hck
      have hnotfirst : ¬(first = true ∧ hasCB = true) := by
        rcases h1 with h | h <;> simp [h]
      simp only [unusedNameLoop]
      rw [if_neg (by simp [htc]), if_neg hnotfirst]
      exact ih (counter + 1) first h1 (by omega)
        (fun j hj1 hj2 => h3 j (by omega) hj2) (by omega)

/-- C2 counterexample: only `mod.zip` exists and `redownload = 'replace'`
(with a `file_exists_cb` registered); the claim says the reservation
returns a path equal to the existing name (`mod.zip`), but the source
advances `fullPath` to the next candidate before consulting the mode
(lines 1263-1265) and resolves with it (line 1274), returning
`mod.1.zip`. -/
theorem C2_counterexample :
    unusedName (fun k => k == 0) RedownloadMode.replace true true "mod" ".zip" 3 =
      some (Except.ok "mod.1.zip") ∧ ("mod.1.zip" : String) ≠ "mod.zip" := by
  constructor
  · rfl
  · decide

/-- C2 (amended): on EEXIST for the very first candidate the redownload
policy is consulted only when a `file_exists_cb` is registered.  With one
registered: `never` rejects with `already_downloaded(name)`; `replace`
resolves with the already-advanced next candidate `base.1.ext` — not a path
equal to the existing name; `ask` invokes the callback and continues the
suffix loop on `true` or rejects with `user_canceled` on `false`; `always`
continues the suffix loop.  Without a callback every policy continues the
suffix loop.  Whenever the suffix loop continues, the returned name is
`base.<k>.ext` for the first free counter `k`. -/
theorem C2_unusedName_policy (taken : Nat → Bool) (mode : RedownloadMode)
    (cbAnswer : Bool) (base ext : String) (k fuel : Nat)
    (h0 : taken 0 = true) (hfree : taken k = false)
    (hbelow : ∀ j, 0 < j → j < k → taken j = true) (hfuel : k < fuel) :
    (unusedName taken RedownloadMode.never true cbAnswer base ext fuel =
      some (Except.error (NameErr.alreadyDownloaded (candName base ext 0)))) ∧
    (unusedName taken RedownloadMode.replace true cbAnswer base ext fuel =
      some (Except.ok (candName base ext 1))) ∧
    (unusedName taken RedownloadMode.ask true false base ext fuel =
      some (Except.error NameErr.userCanceled)) ∧
    (unusedName taken RedownloadMode.ask true true base ext fuel =
      some (Except.ok (candName base ext k))) ∧
    (unusedName taken RedownloadMode.always true cbAnswer base ext fuel =
      some (Except.ok (candName base ext k))) ∧
    (unusedName taken mode false cbAnswer base ext fuel =
      some (Except.ok (candName base ext k))) := by
  have hk1 : 0 < k := by
    rcases Nat.eq_zero_or_pos k with h | h
    · rw [h, h0] at hfree
      exact Bool.noConfusion hfree
    · exact h
  obtain ⟨fuel1, rfl⟩ : ∃ f, fuel = f + 1 := ⟨fuel - 1, by omega⟩
  have htail : ∀ j, 1 ≤ j → j < k → taken j = true := by
    intro j hj1 hj2
    exact hbelow j (by omega) hj2
  have hcont : ∀ m c, unusedNameLoop taken m true c (candName base ext 0) 1 false fuel1 =
      some (Except.ok k) := by
    intro m c
    exact unusedNameLoop_finds_free taken m true c (candName base ext 0) k hfree
      fuel1 1 false (Or.inl rfl) hk1 htail (by omega)
  have hcontNoCB : unusedNameLoop taken mode false cbAnswer (candName base ext 0) 1 true fuel1 =
      some (Except.ok k) :=
    unusedNameLoop_finds_free taken mode false cbAnswer (candName base ext 0) k hfree
      fuel1 1 true (Or.inr rfl) hk1 htail (by omega)
  refine ⟨?_, ?_, ?_, ?_, ?_, ?_⟩
  · unfold unusedName
    simp only [unusedNameLoop]
    rw [if_neg (by simp [h0]), if_pos (by constructor <;> trivial)]
    rfl
  · unfold unusedName
    simp only [unusedNameLoop]
    rw [if_neg (by simp [h0]), if_pos (by constructor <;> trivial)]
    rfl
  · unfold unusedName
    simp only [unusedNameLoop]
    rw [if_neg (by simp [h0]), if_pos (by constructor <;> trivial)]
    rfl
  · unfold unusedName
    simp only [unusedNameLoop]
    rw [if_neg (by simp [h0]), if_pos (by constructor <;> trivial)]
    rw [if_pos (by trivial)]
    rw [hcont RedownloadMode.ask true]
    rfl
  · unfold unusedName
    simp only [unusedNameLoop]
    rw [if_neg (by simp [h0]), if_pos (by constructor <;> trivial)]
    rw [hcont RedownloadMode.always cbAnswer]
    rfl
  · unfold unusedName
    simp only [unusedNameLoop]
    rw [if_neg (by simp [h0]), if_neg (by simp)]
    rw [hcontNoCB]
    rfl

/-- C2 witness: candidates 0 and 1 exist, candidate 2 is free. -/
theorem C2_unusedName_policy_witness :
    ((fun k => decide (k < 2)) 0 = true) ∧
    ((fun k => decide (k < 2)) 2 = false) ∧
    (unusedName (fun k => decide (k < 2)) RedownloadMode.never true true "mod" ".zip" 4 =
      some (Except.error (NameErr.alreadyDownloaded (candName "mod" ".zip" 0)))) ∧
    (unusedName (fun k => decide (k < 2)) RedownloadMode.replace true true "mod" ".zip" 4 =
      some (Except.ok (candName "mod" ".zip" 1))) ∧
    (unusedName (fun k => decide (k < 2)) RedownloadMode.ask true true "mod" ".zip" 4 =
      some (Except.ok (candName "mod" ".zip" 2))) ∧
    (unusedName (fun k => decide (k < 2)) RedownloadMode.always true true "mod" ".zip" 4 =
      some (Except.ok (candName "mod" ".zip" 2))) := by
  have h := C2_unusedName_policy (fun k => decide (k < 2)) RedownloadMode.always
    true "mod" ".zip" 2 4 (by decide) (by decide)
    (by
      intro j hj1 hj2
      simp only [decide_eq_true_eq]
      omega)
    (by decide)
  exact ⟨by decide, by decide, h.1, h.2.1, h.2.2.2.1, h.2.2.2.2.1⟩

theorem isRedirectCode_ge_300 (status : Nat) (h : isRedirectCode status = true) :
    300 ≤ status := by
  have h2 : status = 301 ∨ status = 302 ∨ status = 307 ∨ status = 308 := by
    simpa [isRedirectCode] using h
  rcases h2 with h | h | h | h <;> omega

/-- the redirect counter can never exceed `MAX_REDIRECT_FOLLOW`: the
redirect branch is guarded by `mRedirectsFollowed < MAX_REDIRECT_FOLLOW`
(line 369) and is the only place the counter grows (line 379). -/
theorem redirectsTrace_le (statuses : List Nat) : ∀ r,
    r ≤ MAX_REDIRECT_FOLLOW → redirectsTrace r statuses ≤ MAX_REDIRECT_FOLLOW := by
  induction statuses with
  | nil =>
    intro r hr
    simpa [redirectsTrace] using hr
  | cons s rest ih =>
    intro r hr
    simp only [redirectsTrace]
    cases hdec : responseDecision s "" "" r with
    | redirect =>
      have hrlt : r < MAX_REDIRECT_FOLLOW := by
        by_contra hge
        push_neg at hge
        unfold responseDecision at hdec
        by_cases h1 : 300 ≤ s
        · rw [if_pos h1, if_neg (fun hc => absurd hc.2 (by omega))] at hdec
          exact RespDecision.noConfusion hdec
        · rw [if_neg h1] at hdec
          exact RespDecision.noConfusion hdec
      exact ih (r + 1) (by omega)
    | httpError status statusText jobUrl => exact ih r hr
    | proceed => exact ih r hr

/-- C3 counterexample: a job whose current attempt started at offset 100
and has received 50 bytes in flight (so `offset = 150`, `received = 50`,
pre-request offset 100).  The claim says the redirect rewinds the job's
`offset` to its pre-request value; the source sets `offset` to 0 (lines
384-388), and `0 ≠ 100`. -/
theorem C3_counterexample :
    (redirectSettle
      { ended := false
        writing := false
        restartFlag := false
        redirected := true
        redirectsFollowed := 0
        dataHistoryLen := 1
        buffers := []
        job := { witnessInitJob with offset := 150, received := 50, size := 200 } }).job.offset
      = 0 ∧
    (150 : Int) - 50 = 100 ∧ (0 : Int) ≠ 100 := by
  refine ⟨rfl, by decide, by decide⟩

/-- C3 (amended): a response with status 301, 302, 307 or 308 while fewer
than `MAX_REDIRECT_FOLLOW = 2` redirects were followed takes the redirect
branch: the job URL is rebound, and after the 100 ms settle delay the
redirect counter is incremented, the job's `size` (and `confirmedSize`) is
rewound to its pre-request value while `offset`, `received` and the
confirmed offset/received counters are zeroed — `offset` is reset to 0,
not to its pre-request value — and the job re-enters `running` with the
ended flag cleared; every other response with status ≥ 300 fails the
attempt with `http_error(status, status_text, url)`; a worker attempt
never follows more than 2 redirects. -/
theorem C3_redirect_handling (w : Worker) (status : Nat)
    (statusText jobUrl : String) (newUrlId : Nat) (preSize : Int)
    (hpre : w.job.size + w.job.received = preSize) :
    (isRedirectCode status = true → w.redirectsFollowed < MAX_REDIRECT_FOLLOW →
      responseDecision status statusText jobUrl w.redirectsFollowed =
        RespDecision.redirect ∧
      (redirectSettle (redirectBegin w newUrlId)).redirectsFollowed =
        w.redirectsFollowed + 1 ∧
      (redirectSettle (redirectBegin w newUrlId)).job.size = preSize ∧
      (redirectSettle (redirectBegin w newUrlId)).job.confirmedSize = preSize ∧
      (redirectSettle (redirectBegin w newUrlId)).job.offset = 0 ∧
      (redirectSettle (redirectBegin w newUrlId)).job.received = 0 ∧
      (redirectSettle (redirectBegin w newUrlId)).job.confirmedOffset = 0 ∧
      (redirectSettle (redirectBegin w newUrlId)).job.confirmedReceived = 0 ∧
      (redirectSettle (redirectBegin w newUrlId)).job.urlId = newUrlId ∧
      (redirectSettle (redirectBegin w newUrlId)).job.state = ChunkState.running ∧
      (redirectSettle (redirectBegin w newUrlId)).ended = false ∧
      SETTLE_DELAY_MS = 100) ∧
    (300 ≤ status →
      ¬(isRedirectCode status = true ∧ w.redirectsFollowed < MAX_REDIRECT_FOLLOW) →
      responseDecision status statusText jobUrl w.redirectsFollowed =
        RespDecision.httpError status statusText jobUrl) ∧
    (∀ statuses : List Nat, redirectsTrace 0 statuses ≤ MAX_REDIRECT_FOLLOW) := by
  refine ⟨?_, ?_, ?_⟩
  · intro hcode hlt
    have h300 := isRedirectCode_ge_300 status hcode
    refine ⟨?_, rfl, hpre, hpre, rfl, rfl, rfl, rfl, rfl, rfl, rfl, rfl⟩
    unfold responseDecision
    rw [if_pos h300, if_pos ⟨hcode, hlt⟩]
  · intro h300 hnot
    unfold responseDecision
    rw [if_pos h300, if_neg hnot]
  · intro statuses
    exact redirectsTrace_le statuses 0 (by decide)

/-- C3 witness: a 302 on the first response of an attempt that had already
received 50 bytes from offset 100. -/
theorem C3_redirect_handling_witness :
    isRedirectCode 302 = true ∧ (0 : Nat) < MAX_REDIRECT_FOLLOW ∧
    (200 : Int) + 50 = 250 ∧
    (responseDecision 302 "Found" "http://a/f" 0 = RespDecision.redirect ∧
      (redirectSettle (redirectBegin
        { ended := false
          writing := false
          restartFlag := false
          redirected := false
          redirectsFollowed := 0
          dataHistoryLen := 1
          buffers := []
          job := { witnessInitJob with offset := 150, received := 50, size := 200 } }
        9)).job.size = 250 ∧
      (redirectSettle (redirectBegin
        { ended := false
          writing := false
          restartFlag := false
          redirected := false
          redirectsFollowed := 0
          dataHistoryLen := 1
          buffers := []
          job := { witnessInitJob with offset := 150, received := 50, size := 200 } }
        9)).job.offset = 0) := by
  have h := C3_redirect_handling
    { ended := false
      writing := false
      restartFlag := false
      redirected := false
      redirectsFollowed := 0
      dataHistoryLen := 1
      buffers := []
      job := { witnessInitJob with offset := 150, received := 50, size := 200 } }
    302 "Found" "http://a/f" 9 250 (by decide)
  have h1 := h.1 (by decide) (by decide)
  exact ⟨by decide, by decide, by decide, h1.1, h1.2.2.1, h1.2.2.2.2.1⟩


theorem pauseReleaseStep_subset (b : List Nat) (c : Job) :
    pauseReleaseStep b c ⊆ b := by
  unfold pauseReleaseStep
  by_cases h1 : pauseCollectible c = true
  · rw [if_pos h1]
    cases c.workerId with
    | none => exact List.Subset.refl b
    | some wid =>
      show (if b.contains wid = true then b.erase wid else b) ⊆ b
      by_cases h2 : b.contains wid = true
      · rw [if_pos h2]
        exact List.erase_subset ..
      · rw [if_neg h2]
        exact List.Subset.refl b
  · rw [if_neg h1]
    exact List.Subset.refl b

theorem pauseReleaseStep_nodup (b : List Nat) (c : Job) (h : b.Nodup) :
    (pauseReleaseStep b c).Nodup := by
  unfold pauseReleaseStep
  by_cases h1 : pauseCollectible c = true
  · rw [if_pos h1]
    cases c.workerId with
    | none => exact h
    | some wid =>
      show (if b.contains wid = true then b.erase wid else b).Nodup
      by_cases h2 : b.contains wid = true
      · rw [if_pos h2]
        exact h.erase wid
      · rw [if_neg h2]
        exact h
  · rw [if_neg h1]
    exact h

theorem pauseReleaseWorkers_subset (chunks : List Job) : ∀ busy : List Nat,
    pauseReleaseWorkers busy chunks ⊆ busy := by
  induction chunks with
  | nil =>
    intro busy
    exact List.Subset.refl busy
  | cons c rest ih =>
    intro busy
    have heq : pauseReleaseWorkers busy (c :: rest) =
        pauseReleaseWorkers (pauseReleaseStep busy c) rest := rfl
    rw [heq]
    exact List.Subset.trans (ih (pauseReleaseStep busy c))
      (pauseReleaseStep_subset busy c)

/-- every collectible chunk's registered worker slot is released by the
second `forEach` of `pause`. -/
theorem pauseReleaseWorkers_removes (chunks : List Job) : ∀ busy : List Nat,
    busy.Nodup → ∀ c ∈ chunks, pauseCollectible c = true →
    ∀ wid, c.workerId = some wid → wid ∉ pauseReleaseWorkers busy chunks := by
  induction chunks with
  | nil =>
    intro busy _ c hc
    exact absurd hc (List.not_mem_nil c)
  | cons c0 rest ih =>
    intro busy hnodup c hc hcol wid hwid
    have heq : pauseReleaseWorkers busy (c0 :: rest) =
        pauseReleaseWorkers (pauseReleaseStep busy c0) rest := rfl
    rw [heq]
    rcases List.mem_cons.mp hc with rfl | hmem
    · have hstep : wid ∉ pauseReleaseStep busy c := by
        unfold pauseReleaseStep
        rw [if_pos hcol]
        rw [hwid]
        show wid ∉ (if busy.contains wid = true then busy.erase wid else busy)
        by_cases h2 : busy.contains wid = true
        · rw [if_pos h2]
          intro hmem2
          exact ((List.Nodup.mem_erase_iff hnodup).mp hmem2).1 rfl
        · rw [if_neg h2]
          intro hmem2
          exact h2 (by simpa using hmem2)
      exact fun hmem2 =>
        hstep (pauseReleaseWorkers_subset rest (pauseReleaseStep busy c) hmem2)
    · exact ih (pauseReleaseStep busy c0)
        (pauseReleaseStep_nodup busy c0 hnodup) c hmem hcol wid hwid

/-- C4 counterexample: a queued download with a single chunk still in state
`init` (size 5, never running).  `pause` transitions it to `paused` and —
because the collection condition is `['running', 'paused'].includes(state)`
(line 798), not `state === 'running'` — checkpoints it, returning one
checkpoint where the claim's reading (checkpoints only for chunks in state
`running`) predicts an empty list. -/
theorem C4_counterexample :
    (pauseOp [witnessInitOnlyDownload] [] 1).2.2 =
      some [{ urlId := 7, offset := 0, size := 5, received := 0 }] ∧
    claimPauseCheckpoints witnessInitOnlyDownload.chunks = [] ∧
    some [({ urlId := 7, offset := 0, size := 5, received := 0 } : StoredChunk)] ≠
      some (claimPauseCheckpoints witnessInitOnlyDownload.chunks) := by
  refine ⟨by decide, by decide, by decide⟩

/-- C4 (amended): for a queued download, `pause` transitions every `init`
chunk to `paused`, then appends a checkpoint — numeric fields taken from
the confirmed counters — for every chunk in state `running` OR `paused`
with `size > 0` (so freshly-paused `init` chunks and previously paused
chunks are checkpointed as well, not only running ones), pauses and
releases the slot of every such chunk's registered worker, removes the
download from the queue, and returns the checkpoint list. -/
theorem C4_pause (queue : List Download) (busy : List Nat) (id : Nat)
    (d : Download) (hfind : queue.find? (fun x => x.id == id) = some d)
    (hnodup : busy.Nodup) :
    ((pauseOp queue busy id).2.2 =
      some (pauseCheckpoints (pauseMarkInit d.chunks))) ∧
    (∀ c ∈ pauseMarkInit d.chunks, c.state ≠ ChunkState.init) ∧
    (pauseCheckpoints (pauseMarkInit d.chunks) =
      ((pauseMarkInit d.chunks).filter (fun c =>
        (c.state == ChunkState.running || c.state == ChunkState.paused) &&
          decide (0 < c.size))).map (fun c =>
            { urlId := c.urlId
              offset := c.confirmedOffset
              size := c.confirmedSize
              received := c.confirmedReceived })) ∧
    (∀ d2 ∈ (pauseOp queue busy id).1, d2.id ≠ id) ∧
    ((pauseOp queue busy id).2.1 ⊆ busy) ∧
    (∀ c ∈ pauseMarkInit d.chunks, pauseCollectible c = true →
      ∀ wid, c.workerId = some wid → wid ∉ (pauseOp queue busy id).2.1) := by
  have hop : pauseOp queue busy id =
      (queue.filter (fun d2 => d2.id != id),
       pauseReleaseWorkers busy (pauseMarkInit d.chunks),
       some (pauseCheckpoints (pauseMarkInit d.chunks))) := by
    unfold pauseOp
    rw [hfind]
  refine ⟨by rw [hop], ?_, rfl, ?_, ?_, ?_⟩
  · intro c hc
    rcases List.mem_map.mp hc with ⟨c0, _, rfl⟩
    by_cases h0 : c0.state = ChunkState.init
    · rw [if_pos h0]
      intro hcontra
      exact ChunkState.noConfusion hcontra
    · rw [if_neg h0]
      exact h0
  · intro d2 hd2
    rw [hop] at hd2
    have hmem := (List.mem_filter.mp hd2).2
    simpa using hmem
  · rw [hop]
    exact pauseReleaseWorkers_subset (pauseMarkInit d.chunks) busy
  · intro c hc hcol wid hwid
    rw [hop]
    exact pauseReleaseWorkers_removes (pauseMarkInit d.chunks) busy hnodup
      c hc hcol wid hwid

/-- C4 witness: a download with one running chunk (worker 3) and one init
chunk, busy table `[3]`. -/
theorem C4_pause_witness :
    ([witnessPauseDownload].find? (fun x => x.id == 2) =
      some witnessPauseDownload) ∧
    ([3] : List Nat).Nodup ∧
    ((pauseOp [witnessPauseDownload] [3] 2).2.2 =
      some (pauseCheckpoints (pauseMarkInit witnessPauseDownload.chunks))) := by
  refine ⟨by decide, by decide, ?_⟩
  exact (C4_pause [witnessPauseDownload] [3] 2 witnessPauseDownload
    (by decide) (by decide)).1

/-- C5: when a worker finishes a chunk, the chunk's state becomes `paused`
if interrupted or its residual size is positive and `finished` otherwise; a
non-interrupted finish with residual size sets the download's sticky error
flag; the completion record fires exactly when no chunk of the download
remains in a non-terminal state, and then the assembler is closed and
`finish_cb` receives the still-paused chunks as stored checkpoints,
`had_errors` equal to the (updated) error flag, and
`size = max(size, received)`. -/
theorem C5_finishChunk (d : Download) (idx : Nat) (interrupted : Bool)
    (busy : List Nat) (j : Job) (hj : d.chunks[idx]? = some j) :
    ((finishChunk d idx interrupted busy).1.chunks =
      d.chunks.set idx { j with state :=
        if interrupted = true ∨ 0 < j.size then ChunkState.paused
        else ChunkState.finished }) ∧
    ((finishChunk d idx interrupted busy).1.error =
      (d.error || (!interrupted && decide (0 < j.size)))) ∧
    ((finishChunk d idx interrupted busy).2.2.isSome = true ↔
      ((finishChunk d idx interrupted busy).1.chunks.all
        (fun c => isTerminalState c.state)) = true) ∧
    (∀ r, (finishChunk d idx interrupted busy).2.2 = some r →
      r.hadErrors = (d.error || (!interrupted && decide (0 < j.size))) ∧
      r.size = max d.size d.received ∧
      r.unfinishedChunks =
        (((finishChunk d idx interrupted busy).1.chunks.filter
          (fun c => c.state == ChunkState.paused)).map toStoredChunk) ∧
      (finishChunk d idx interrupted busy).1.assemblerClosed = true) := by
  by_cases hall : (d.chunks.set idx { j with state :=
      if interrupted = true ∨ 0 < j.size then ChunkState.paused
      else ChunkState.finished }).all (fun c => isTerminalState c.state) = true
  · have heq : finishChunk d idx interrupted busy =
        ({ d with
            chunks := d.chunks.set idx { j with state :=
              if interrupted = true ∨ 0 < j.size then ChunkState.paused
              else ChunkState.finished }
            error := d.error || (!interrupted && decide (0 < j.size))
            assemblerClosed := true },
         (match j.workerId with
          | some wid => busy.erase wid
          | none => busy),
         some { unfinishedChunks :=
                  ((d.chunks.set idx { j with state :=
                    if interrupted = true ∨ 0 < j.size then ChunkState.paused
                    else ChunkState.finished }).filter
                      (fun c => c.state == ChunkState.paused)).map toStoredChunk
                hadErrors := d.error || (!interrupted && decide (0 < j.size))
                size := max d.size d.received }) := by
      unfold finishChunk
      rw [hj]
      simp only [hall, if_true]
    rw [heq]
    refine ⟨rfl, rfl, ?_, ?_⟩
    · simpa using hall
    · intro r hr
      have hr2 := Option.some_injective _ hr.symm
      rw [hr2]
      exact ⟨rfl, rfl, rfl, rfl⟩
  · have heq : finishChunk d idx interrupted busy =
        ({ d with
            chunks := d.chunks.set idx { j with state :=
              if interrupted = true ∨ 0 < j.size then ChunkState.paused
              else ChunkState.finished }
            error := d.error || (!interrupted && decide (0 < j.size)) },
         (match j.workerId with
          | some wid => busy.erase wid
          | none => busy),
         none) := by
      unfold finishChunk
      rw [hj]
      simp only [hall, Bool.false_eq_true, if_false]
    rw [heq]
    refine ⟨rfl, rfl, ?_, ?_⟩
    · simpa using hall
    · intro r hr
      exact absurd hr (by simp)

/-- C5 witness: a single running chunk interrupted mid-flight; the record
fires with the chunk checkpointed, no error, size `max 40 10`. -/
theorem C5_finishChunk_witness :
    (({ witnessPauseDownload with chunks := [witnessRunningJob] } :
        Download).chunks[0]? = some witnessRunningJob) ∧
    ((finishChunk { witnessPauseDownload with chunks := [witnessRunningJob] }
        0 true [3]).1.chunks =
      ({ witnessPauseDownload with chunks := [witnessRunningJob] } :
        Download).chunks.set 0 { witnessRunningJob with state :=
          if (true : Bool) = true ∨ 0 < witnessRunningJob.size
          then ChunkState.paused else ChunkState.finished }) ∧
    ((finishChunk { witnessPauseDownload with chunks := [witnessRunningJob] }
        0 true [3]).1.error =
      (({ witnessPauseDownload with chunks := [witnessRunningJob] } :
        Download).error || (!(true : Bool) && decide (0 < witnessRunningJob.size)))) := by
  have h := C5_finishChunk
    { witnessPauseDownload with chunks := [witnessRunningJob] } 0 true [3]
    witnessRunningJob (by decide)
  exact ⟨by decide, h.1, h.2.1⟩

/-- C6 counterexample: a worker on the FIRST chunk (its job carries the
`cancelDownload` error callback) whose chunk is running and registered
busy, hit by `ECONNRESET` after one received block.  The claim says the
attempt is retried; but `errorCB` cancels the whole download — ending this
very worker — so the `!this.mEnded` conjunct of the retry condition
(line 296) fails and the attempt finishes instead. -/
theorem C6_counterexample :
    (handleError witnessWorker "ECONNRESET" true).2 = ErrorAction.finish ∧
    (handleError witnessWorker "ECONNRESET" true).2 ≠ ErrorAction.retry := by
  refine ⟨by decide, by decide⟩

/-- C6 (amended): a worker attempt failing with `ESOCKETTIMEDOUT` or
`ECONNRESET` after at least one received block is retried — URL
re-resolved, `assignJob` re-invoked on the same job with its counters
untouched — provided the job's error callback does not end the worker
(it does for the first chunk while its chunk is running and busy, because
`cancelDownload` cancels this very worker); every other error ends the
attempt by setting `mEnded` and firing `finish_cb`. -/
theorem C6_handleError_retry (w : Worker) (errCode : String)
    (chunkRunningBusy : Bool) (hended : w.ended = false) :
    ((handleError w errCode chunkRunningBusy).2 = ErrorAction.retry ↔
      (retryErrorCodes.contains errCode = true ∧ 0 < w.dataHistoryLen ∧
        errorCBEndsWorker w chunkRunningBusy = false)) ∧
    ((handleError w errCode chunkRunningBusy).2 = ErrorAction.retry →
      (handleError w errCode chunkRunningBusy).1.job = w.job) ∧
    ((handleError w errCode chunkRunningBusy).2 ≠ ErrorAction.retry →
      (handleError w errCode chunkRunningBusy).2 = ErrorAction.finish ∧
      (handleError w errCode chunkRunningBusy).1.ended = true) := by
  unfold handleError
  rw [if_neg (by simp [hended])]
  by_cases hcb : errorCBEndsWorker w chunkRunningBusy = true
  · rw [if_pos hcb]
    rw [if_neg (by simp)]
    refine ⟨?_, ?_, ?_⟩
    · simp [hcb]
    · intro h
      exact absurd h (by simp)
    · intro _
      exact ⟨rfl, rfl⟩
  · rw [if_neg hcb]
    by_cases hretry : retryErrorCodes.contains errCode = true ∧ w.ended = false ∧
        0 < w.dataHistoryLen
    · rw [if_pos hretry]
      refine ⟨?_, ?_, ?_⟩
      · simp only [eq_self_iff_true, true_iff]
        exact ⟨hretry.1, hretry.2.2, by simpa using hcb⟩
      · intro _
        rfl
      · intro h
        exact absurd rfl h
    · rw [if_neg hretry]
      refine ⟨?_, ?_, ?_⟩
      · constructor
        · intro h
          exact absurd h (by simp)
        · intro ⟨h1, h2, h3⟩
          exact absurd ⟨h1, hended, h2⟩ hretry
      · intro h
        exact absurd h (by simp)
      · intro _
        exact ⟨rfl, rfl⟩

/-- C6 witness: a non-first chunk (no error callback) hit by `ECONNRESET`
after one received block retries. -/
theorem C6_handleError_retry_witness :
    ({ witnessWorker with job := { witnessInitJob with hasErrorCB := false } } :
      Worker).ended = false ∧
    (handleError
      { witnessWorker with job := { witnessInitJob with hasErrorCB := false } }
      "ECONNRESET" true).2 = ErrorAction.retry := by
  refine ⟨by decide, ?_⟩
  exact (C6_handleError_retry
    { witnessWorker with job := { witnessInitJob with hasErrorCB := false } }
    "ECONNRESET" true (by decide)).1.mpr ⟨by decide, by decide, by decide⟩

/-- C7: a `starving` verdict increments the worker's slow counter and, when
the counter exceeds 15 (at 16 accumulated starves) and the download started
less than 15 minutes ago, restarts the worker and clears the counter; when
there is no restart the counter keeps the incremented value; a `healthy`
verdict clears the counter without restarting; an undefined verdict changes
nothing; a download started 15 minutes ago or more is never restarted by
this path. -/
theorem C7_slow_worker_restart (slowCount : Nat) (startedDefined : Bool)
    (elapsedMs : Int) :
    ((progressTick slowCount (some true) startedDefined elapsedMs).2 = true ↔
      (15 < slowCount + 1 ∧ startedDefined = true ∧
        elapsedMs < SLOW_WORKER_WINDOW_MS)) ∧
    ((progressTick slowCount (some true) startedDefined elapsedMs).2 = true →
      progressTick slowCount (some true) startedDefined elapsedMs = (0, true)) ∧
    ((progressTick slowCount (some true) startedDefined elapsedMs).2 = false →
      progressTick slowCount (some true) startedDefined elapsedMs =
        (slowCount + 1, false)) ∧
    (progressTick slowCount (some false) startedDefined elapsedMs = (0, false)) ∧
    (progressTick slowCount none startedDefined elapsedMs = (slowCount, false)) ∧
    (SLOW_WORKER_WINDOW_MS ≤ elapsedMs → ∀ starving : Option Bool,
      (progressTick slowCount starving startedDefined elapsedMs).2 = false) := by
  unfold progressTick
  by_cases hcond : 15 < slowCount + 1 ∧ startedDefined = true ∧
      elapsedMs < SLOW_WORKER_WINDOW_MS
  · rw [if_pos hcond]
    refine ⟨by simpa using hcond, fun _ => rfl, ?_, rfl, rfl, ?_⟩
    · intro h
      exact absurd h (by simp)
    · intro hlate starving
      exact absurd hcond.2.2 (by omega)
  · rw [if_neg hcond]
    refine ⟨by simpa using hcond, ?_, fun _ => rfl, rfl, rfl, ?_⟩
    · intro h
      exact absurd h (by simp)
    · intro hlate starving
      cases starving with
      | none => rfl
      | some b =>
        cases b with
        | false => rfl
        | true => rfl

/-- C7 witness: the 16th starve 10 minutes into the download restarts and
clears; healthy clears; at 15 minutes nothing restarts. -/
theorem C7_slow_worker_restart_witness :
    ((progressTick 15 (some true) true 600000).2 = true) ∧
    (progressTick 15 (some true) true 600000 = (0, true)) ∧
    (progressTick 15 (some false) true 600000 = (0, false)) ∧
    ((progressTick 15 (some true) true 900000).2 = false) := by
  have h := C7_slow_worker_restart 15 true 600000
  have hr : (progressTick 15 (some true) true 600000).2 = true :=
    h.1.mpr ⟨by omega, rfl, by decide⟩
  refine ⟨hr, h.2.1 hr, h.2.2.2.1, ?_⟩
  exact (C7_slow_worker_restart 15 true 900000).2.2.2.2.2 (by decide) (some true)

/-- C8: once the ended flag is set — which every `finish_cb` call site sets
first — `handleData` drops arriving buffers without writing or advancing
any counter, `handleError` reports nothing, and `abort` neither changes
state nor fires `finish_cb` again. -/
theorem C8_exactly_once_termination (w : Worker) (hended : w.ended = true) :
    (∀ dataLen : Nat, handleData w dataLen = (w, DataAction.dropEnded)) ∧
    (∀ (errCode : String) (chunkRunningBusy : Bool),
      handleError w errCode chunkRunningBusy = (w, ErrorAction.ignored)) ∧
    (∀ paused : Bool, abortWorker w paused = (w, none)) := by
  refine ⟨?_, ?_, ?_⟩
  · intro dataLen
    unfold handleData
    rw [if_pos (Or.inl hended)]
  · intro errCode chunkRunningBusy
    unfold handleError
    rw [if_pos hended]
  · intro paused
    unfold abortWorker
    rw [if_pos hended]

/-- C8 witness: an ended worker drops a 100-byte block, ignores an
`ECONNRESET` and refuses a second abort. -/
theorem C8_exactly_once_termination_witness :
    ({ witnessWorker with ended := true } : Worker).ended = true ∧
    handleData { witnessWorker with ended := true } 100 =
      ({ witnessWorker with ended := true }, DataAction.dropEnded) ∧
    handleError { witnessWorker with ended := true } "ECONNRESET" true =
      ({ witnessWorker with ended := true }, ErrorAction.ignored) ∧
    abortWorker { witnessWorker with ended := true } false =
      ({ witnessWorker with ended := true }, none) := by
  have h := C8_exactly_once_termination { witnessWorker with ended := true }
    (by decide)
  exact ⟨by decide, h.1 100, h.2.1 "ECONNRESET" true, h.2.2 false⟩

/-- C9 counterexample: `enqueue` with an empty URL list rejects with the
plain `new Error('No download urls')` (line 630), not with the `DataInvalid`
class (which line 639 reserves for an unparseable URL). -/
theorem C9_counterexample :
    enqueueStart [] [] 0 =
      Except.error (EnqueueErr.genericError "No download urls") ∧
    isDataInvalid (enqueueStart [] [] 0) = false := by
  refine ⟨rfl, by decide⟩

/-- C9 (amended): every `enqueue` call with an empty URL list is rejected
immediately with the generic `Error('No download urls')` — not a
`data_invalid` error — and no download is queued. -/
theorem C9_enqueue_empty_urls (queue : List Nat) (id : Nat) :
    enqueueStart [] queue id =
      Except.error (EnqueueErr.genericError "No download urls") ∧
    (∀ queue2, enqueueStart [] queue id ≠ Except.ok queue2) := by
  refine ⟨rfl, ?_⟩
  intro queue2 h
  rw [show enqueueStart [] queue id =
    Except.error (EnqueueErr.genericError "No download urls") from rfl] at h
  exact Except.noConfusion h

/-- C10 counterexample: a chunk appended by `updateDownload` carries no
response callback (lines 1085-1094), so the whole block of lines 410-459 —
including the `offset = 0` reset of line 425 — is skipped: with `offset 5`
and a 2xx response without `Content-Range`, the offset stays 5, not 0. -/
theorem C10_counterexample :
    (applyResponseToJob (mkAppendedChunk 7 (5, 7)) (some 10) false).offset = 5 ∧
    (5 : Int) ≠ 0 := by
  refine ⟨by decide, by decide⟩

/-- C10 (amended): for a 2xx non-HTML response, when — and only when — the
job carries a response callback (the initial chunk and all resumed chunks;
chunks appended by `updateDownload` carry none), a missing `Content-Range`
header resets the job's offset to 0 before the body streams, and a
`Content-Length` different from the job's size overwrites `size` and
`confirmedSize`; without a response callback the job is untouched. -/
theorem C10_response_offset_reset (j : Job) (contentLength : Option Int)
    (hasContentRange : Bool) :
    (j.hasResponseCB = false →
      applyResponseToJob j contentLength hasContentRange = j) ∧
    (j.hasResponseCB = true → hasContentRange = false →
      (applyResponseToJob j contentLength hasContentRange).offset = 0) ∧
    (j.hasResponseCB = true → ∀ L, contentLength = some L → L ≠ j.size →
      (applyResponseToJob j contentLength hasContentRange).size = L ∧
      (applyResponseToJob j contentLength hasContentRange).confirmedSize = L) ∧
    (j.hasResponseCB = true → contentLength = some j.size →
      (applyResponseToJob j contentLength hasContentRange).size = j.size) := by
  refine ⟨?_, ?_, ?_, ?_⟩
  · intro hno
    unfold applyResponseToJob
    rw [if_neg (by simp [hno])]
  · intro hcb hcr
    unfold applyResponseToJob
    rw [if_pos hcb, hcr]
    simp only [Bool.false_eq_true, if_false]
    split <;> rfl
  · intro hcb L hL hne
    by_cases hcr : hasContentRange = true
    · refine ⟨?_, ?_⟩ <;> simp [applyResponseToJob, hcb, hL, hne, hcr]
    · refine ⟨?_, ?_⟩ <;> simp [applyResponseToJob, hcb, hL, hne, hcr]
  · intro hcb hL
    by_cases hcr : hasContentRange = true
    · simp [applyResponseToJob, hcb, hL, hcr]
    · simp [applyResponseToJob, hcb, hL, hcr]

/-- C10 witness: the initial chunk (response callback present) with offset
5 and size 20 receiving a 2xx without `Content-Range` and with
`Content-Length 10`. -/
theorem C10_response_offset_reset_witness :
    ({ witnessInitJob with offset := 5, size := 20 } : Job).hasResponseCB = true ∧
    (applyResponseToJob { witnessInitJob with offset := 5, size := 20 }
      (some 10) false).offset = 0 ∧
    (applyResponseToJob { witnessInitJob with offset := 5, size := 20 }
      (some 10) false).size = 10 := by
  have h := C10_response_offset_reset
    { witnessInitJob with offset := 5, size := 20 } (some 10) false
  exact ⟨by decide, h.2.1 (by decide) rfl,
    (h.2.2.1 (by decide) 10 rfl (by decide)).1⟩
